import Mathlib

/-!
Verification development for the Docprompt task-execution core.

The definitions below are a shallow embedding of the Python source:

* `docprompt/_decorators.py` — the `flexible_methods` decorator
  (dual sync/async contract enforcement and wrapper synthesis);
* `docprompt/tasks/base.py` — `ResultContainer`, the page-level and
  document-level task providers and their `process_document_node`;
* `docprompt/tasks/ocr/base.py` — `BaseOCRProvider.process_document_node`
  and `_populate_ocr_results`;
* `docprompt/service_providers/google_docai.py` — the tenacity retry
  policy, the concurrent slot-array collection, and the chunk-merge
  functions `gcp_documents_to_result_single` / `gcp_documents_to_result`.

Python dictionaries are embedded as association lists with insertion
order and overwrite-in-place semantics; fallible Python code (raised
exceptions) is embedded with `Option`/`Except`.
-/

namespace Docprompt

/-- Embedding of a Python `dict` with `String` keys: an association list in
insertion order, with at most one entry per key when built via `assocSet`. -/
abbrev PyDict (β : Type) : Type := List (String × β)

/-- Embedding of Python `d[k] = v` on a dict: if the key is present the
entry is overwritten in place (insertion order preserved), otherwise the
new entry is appended at the end. -/
def assocSet {β : Type} (d : PyDict β) (k : String) (v : β) : PyDict β :=
  if d.any (fun p => p.1 == k) then
    d.map (fun p => if p.1 == k then (k, v) else p)
  else d ++ [(k, v)]

/-- Embedding of Python `d.get(k)` / `d[k]`: first entry with the key. -/
def pyLookup {β : Type} (d : PyDict β) (k : String) : Option β :=
  (d.find? (fun p => p.1 == k)).map (fun p => p.2)

/-- Embedding of Python `{**d1, **d2}`: start from `d1` and insert every
entry of `d2` in order, so `d2` (call-time) values win on key collisions. -/
def pyMerge {β : Type} (d1 d2 : PyDict β) : PyDict β :=
  d2.foldl (fun acc p => assocSet acc p.1 p.2) d1

/-! ### `docprompt/_decorators.py` — the `flexible_methods` decorator -/

/-- A Python method as the decorator sees it: whether
`asyncio.iscoroutinefunction` holds of it, and its call semantics
(argument list to return value, modelled over `Nat`). -/
structure Method where
  isAsync : Bool
  fn : List Nat → Nat

/-- An entry of a class `__dict__` after the decorator ran: either a method
defined in the source, or a wrapper synthesized by `apply_flexible_methods`
(`synthFromSync` is the `async_wrapper` closing over the `sync_method`
loop variable; `synthFromAsync` is the `sync_wrapper` closing over the
`async_method` loop variable). -/
inductive MethodEntry where
  | defined (m : Method)
  | synthFromSync
  | synthFromAsync

/-- `asyncio.iscoroutinefunction` on a `__dict__` entry: the synthesized
`async_wrapper` is a coroutine function, the synthesized `sync_wrapper`
is not. -/
def MethodEntry.entryIsAsync : MethodEntry → Bool
  | .defined m => m.isAsync
  | .synthFromSync => true
  | .synthFromAsync => false

/-- A class `__dict__`: names mapped to entries, in definition order. -/
abbrev ClassDict : Type := List (String × MethodEntry)

/-- A single-inheritance class hierarchy as the decorator inspects it:
`dicts.head!` is `cls.__dict__`, the next element is the direct base's
`__dict__`, and the remaining elements are the further ancestors' dicts in
method-resolution order.  (Every class the repository passes through the
decorator has a single base carrying the relevant names.) -/
abbrev Hierarchy : Type := List ClassDict

/-- First hit for a name along a chain of class dicts (the `getattr`
fallback of `get_method`, restricted to the ancestors past the direct
base). -/
def lookupChain (dicts : List ClassDict) (name : String) : Option MethodEntry :=
  match dicts with
  | [] => none
  | d :: rest =>
    match pyLookup d name with
    | some m => some m
    | none => lookupChain rest name

/-- Embedding of `get_method` (`_decorators.py` lines 8–15): a name found in
`cls.__dict__` is returned; a name found in the direct base's `__dict__`
is reported as `None` ("exists in parent, so it's not overridden");
otherwise the inherited attribute from further ancestors is returned. -/
def get_method (h : Hierarchy) (name : String) : Option MethodEntry :=
  match h with
  | [] => none
  | own :: bases =>
    match pyLookup own name with
    | some m => some m
    | none =>
      match bases with
      | [] => none
      | base :: ancestors =>
        if (pyLookup base name).isSome then none
        else lookupChain ancestors name

/-- The violations `apply_flexible_methods` collects before raising one
aggregate `TypeError`.  `modeMismatch name clsName expectedAsync` records
the message "Method name in clsName should be …" of `validate_method`;
`clsName` there is the closure variable `cls` of the *decorator*, i.e. the
originally decorated class.  `missingPair clsName s a` records
"clsName must implement at least one of these methods: s, a", whose
`cls` is the parameter of `apply_flexible_methods`, i.e. the class being
defined. -/
inductive FlexError where
  | invalidGroup (group : List String)
  | modeMismatch (methodName : String) (clsName : String) (expectedAsync : Bool)
  | missingPair (clsName : String) (syncName : String) (asyncName : String)
deriving DecidableEq, Repr

/-- Embedding of `validate_method` (`_decorators.py` lines 17–23).
`decoratedName` is the decorator closure's `cls.__name__`, used in the
mismatch message even when a subclass is being re-validated. -/
def validate_method (decoratedName : String) (name : String)
    (method : Option MethodEntry) (expectedAsync : Bool) : Option FlexError :=
  match method with
  | none => none
  | some e =>
    if e.entryIsAsync != expectedAsync then
      some (.modeMismatch name decoratedName expectedAsync)
    else none

/-- State threaded through the `for group in method_groups` loop of
`apply_flexible_methods`: the evolving `cls.__dict__` (mutated by
`setattr`), the collected error list, and the current values of the local
variables `sync_method` / `async_method` (one shared cell each — every
synthesized wrapper reads them at call time, after the loop finished). -/
structure ApplyState where
  own : ClassDict
  errors : List FlexError
  syncCell : Option MethodEntry
  asyncCell : Option MethodEntry

/-- One iteration of the loop body of `apply_flexible_methods`
(`_decorators.py` lines 27–65) over a declared group. -/
def applyGroup (decoratedName clsName : String) (bases : List ClassDict)
    (st : ApplyState) (group : List String) : ApplyState :=
  match group with
  | [syncName, asyncName] =>
    let hier : Hierarchy := st.own :: bases
    let syncMethod := get_method hier syncName
    let asyncMethod := get_method hier asyncName
    let errs1 := st.errors
      ++ (validate_method decoratedName syncName syncMethod false).toList
      ++ (validate_method decoratedName asyncName asyncMethod true).toList
    let errs2 := errs1 ++
      (if syncMethod.isNone && asyncMethod.isNone then
        [FlexError.missingPair clsName syncName asyncName]
      else [])
    let own' :=
      if syncMethod.isSome && asyncMethod.isNone then
        assocSet st.own asyncName MethodEntry.synthFromSync
      else if asyncMethod.isSome && syncMethod.isNone then
        assocSet st.own syncName MethodEntry.synthFromAsync
      else st.own
    { own := own', errors := errs2, syncCell := syncMethod, asyncCell := asyncMethod }
  | _ =>
    -- invalid group length: append the error and `continue`
    -- (the sync/async cells are not reassigned)
    { st with errors := st.errors ++ [FlexError.invalidGroup group] }

/-- The class as it stands after `apply_flexible_methods` returned without
raising: its final `__dict__` and the final values of the `sync_method` /
`async_method` loop cells that every synthesized wrapper dereferences at
call time. -/
structure FlexClass where
  own : ClassDict
  bases : List ClassDict
  syncCell : Option MethodEntry
  asyncCell : Option MethodEntry

/-- Embedding of `apply_flexible_methods` (`_decorators.py` lines 25–68) as
run for the class whose hierarchy is `own :: bases`: iterate the declared
groups, then raise the collected errors (as one aggregate `TypeError`) if
any, else return the completed class. -/
def apply_flexible_methods (decoratedName clsName : String)
    (groups : List (List String)) (own : ClassDict) (bases : List ClassDict) :
    Except (List FlexError) FlexClass :=
  let final := groups.foldl (applyGroup decoratedName clsName bases)
    { own := own, errors := [], syncCell := none, asyncCell := none }
  if final.errors.isEmpty then
    .ok { own := final.own, bases := bases,
          syncCell := final.syncCell, asyncCell := final.asyncCell }
  else
    .error final.errors

/-- Calling `obj.name(args)` on a completed class (running a coroutine to
completion where needed).  A defined method runs its own body.  A
synthesized `async_wrapper` runs `asyncio.to_thread(sync_method, ...)`
where `sync_method` is the *final* value of the loop cell; a synthesized
`sync_wrapper` runs `asyncio.run(async_method(...))` with the final
`async_method` cell.  A cell holding `None` makes the call raise
(`None` is not callable): `none`.  A cell holding another synthesized
wrapper would recurse through the same cell; no repository scenario
reaches it and it is embedded as `none` as well. -/
def callMethod (c : FlexClass) (name : String) (args : List Nat) : Option Nat :=
  match lookupChain (c.own :: c.bases) name with
  | some (.defined m) => some (m.fn args)
  | some .synthFromSync =>
    match c.syncCell with
    | some (.defined m) => some (m.fn args)
    | _ => none
  | some .synthFromAsync =>
    match c.asyncCell with
    | some (.defined m) => some (m.fn args)
    | _ => none
  | none => none

/-- Whether a name is present anywhere in the resolved hierarchy
(`cls.__mro__` lookup, i.e. ordinary `getattr`). -/
def presentInHierarchy (h : Hierarchy) (name : String) : Bool :=
  (lookupChain h name).isSome

/-! ### `docprompt/tasks/base.py` and `docprompt/tasks/ocr/base.py` -/

/-- The Python exceptions the embedded task-provider code can raise. -/
inductive PyErr where
  | attributeError
  | assertionError
  | indexError
deriving DecidableEq, Repr

/-- A `BaseResult`: the producing provider's name, its class-level
`task_name`, and an opaque payload standing for the task-specific fields. -/
structure TaskResultM where
  providerName : String
  taskName : String
  payload : Nat
deriving DecidableEq, Repr

/-- `BaseResult.task_key`: `f"{self.provider_name}_{self.task_name}"`. -/
def taskKey (r : TaskResultM) : String :=
  r.providerName ++ "_" ++ r.taskName

/-- A `PageNode`, restricted to its two result aggregators:
`metadata.task_results` and `ocr_results.results`, each a dict keyed by
a string (`task_key` resp. provider name). -/
structure PageNodeM where
  taskResults : PyDict TaskResultM
  ocrResults : PyDict TaskResultM
deriving DecidableEq, Repr

/-- A `DocumentNode`, restricted to its page nodes and the document-scope
aggregator `metadata.task_results`. -/
structure DocumentNodeM where
  pages : List PageNodeM
  docTaskResults : PyDict TaskResultM
deriving DecidableEq, Repr

/-- Embedding of `BasePageResult.contribute_to_document_node`
(`tasks/base.py` lines 58–65): assert the page number is positive, then
write the result into `page_nodes[page_number - 1].metadata.task_results`
under the result's `task_key`. -/
def contribute_to_document_node (node : DocumentNodeM) (r : TaskResultM)
    (pageNumber : Nat) : Except PyErr DocumentNodeM :=
  if pageNumber = 0 then .error .assertionError
  else
    match node.pages[pageNumber - 1]? with
    | none => .error .indexError
    | some pg =>
      .ok { node with
        pages := node.pages.set (pageNumber - 1)
          { pg with taskResults := assocSet pg.taskResults (taskKey r) r } }

/-- Embedding of `AbstractPageTaskProvider.process_document_node`
(`tasks/base.py` lines 142–165).  `providerKwargs` is `none` when the
`provider_kwargs` attribute was never assigned on the instance, in which
case the very first statement `self.provider_kwargs` raises
`AttributeError`.  Otherwise the bound kwargs are merged with the
call-time `kwargs` (call-time winning), `process_document_pages` is
invoked with the merged kwargs (the `task_input`/`start`/`stop`
pass-through is absorbed into `pdp`), and, when `contribute` is set, each
produced result is contributed to its page node.  Returns the updated
document node together with the produced results. -/
def process_document_node {β : Type} (providerKwargs : Option (PyDict β))
    (pdp : PyDict β → List (Nat × TaskResultM)) (node : DocumentNodeM)
    (contribute : Bool) (kwargs : PyDict β) :
    Except PyErr (DocumentNodeM × List (Nat × TaskResultM)) :=
  match providerKwargs with
  | none => .error .attributeError
  | some pk =>
    let merged := pyMerge pk kwargs
    let results := pdp merged
    if contribute then
      (results.foldlM (fun n pr => contribute_to_document_node n pr.2 pr.1) node).map
        (fun n => (n, results))
    else
      .ok (node, results)

/-- Embedding of `AbstractDocumentTaskProvider.process_document_node`
(`tasks/base.py` lines 193–207): the bound `provider_kwargs` are never
read; `process_document` receives exactly the call-time `kwargs`, and the
result is contributed to the document-scope aggregator when `contribute`
is set. -/
def doc_process_document_node {β : Type} (providerKwargs : Option (PyDict β))
    (pd : PyDict β → TaskResultM) (node : DocumentNodeM)
    (contribute : Bool) (kwargs : PyDict β) :
    Except PyErr (DocumentNodeM × TaskResultM) :=
  let _ := providerKwargs
  let result := pd kwargs
  if contribute then
    .ok ({ node with
      docTaskResults := assocSet node.docTaskResults (taskKey result) result },
      result)
  else
    .ok (node, result)

/-- The index Python computes for `page_nodes[page_number - 1]` in
`_populate_ocr_results`, which has no positivity assert: with
`page_number = 0` the index is `-1`, i.e. the last page (Python negative
indexing); an out-of-range index is an `IndexError` (`none`). -/
def pyPageIndex (pages : List PageNodeM) (pageNumber : Nat) : Option Nat :=
  if 1 ≤ pageNumber then
    if pageNumber - 1 < pages.length then some (pageNumber - 1) else none
  else
    if 1 ≤ pages.length then some (pages.length - 1) else none

/-- Embedding of `BaseOCRProvider._populate_ocr_results`
(`tasks/ocr/base.py` lines 17–23): for every produced result, write it
into `page_nodes[page_number - 1].ocr_results.results[self.name]`,
unconditionally. -/
def populate_ocr_results (providerName : String) (node : DocumentNodeM)
    (results : List (Nat × TaskResultM)) : Except PyErr DocumentNodeM :=
  results.foldlM
    (fun n pr =>
      match pyPageIndex n.pages pr.1 with
      | none => .error .indexError
      | some i =>
        match n.pages[i]? with
        | none => .error .indexError
        | some pg =>
          .ok { n with
            pages := n.pages.set i
              { pg with ocrResults := assocSet pg.ocrResults providerName pr.2 } })
    node

/-- Embedding of `BaseOCRProvider.process_document_node`
(`tasks/ocr/base.py` lines 25–42): run the base implementation, then —
regardless of `contribute_to_document` — populate the per-page
`ocr_results` containers with every produced result. -/
def ocr_process_document_node {β : Type} (providerName : String)
    (providerKwargs : Option (PyDict β))
    (pdp : PyDict β → List (Nat × TaskResultM)) (node : DocumentNodeM)
    (contribute : Bool) (kwargs : PyDict β) :
    Except PyErr (DocumentNodeM × List (Nat × TaskResultM)) :=
  (process_document_node providerKwargs pdp node contribute kwargs).bind
    (fun nr => (populate_ocr_results providerName nr.1 nr.2).map
      (fun n => (n, nr.2)))

/-- Embedding of the `ResultContainer.result` property
(`tasks/base.py` lines 83–85): `next(iter(self.results.values()), None)`,
the first value of the dict, or `None` when the dict is empty. -/
def containerResult {β : Type} (results : PyDict β) : Option β :=
  results.head?.map (fun p => p.2)

/-- A sequence of insertions `results[k] = v` applied to an initially
empty `ResultContainer.results` dict. -/
def applyInserts {β : Type} (events : List (String × β)) : PyDict β :=
  events.foldl (fun d p => assocSet d p.1 p.2) []

/-! ### `docprompt/service_providers/google_docai.py` -/

/-- One attempt of a backend call: success with a value, or an exception
that the collaborator classifies as transient (HTTP 429 / 5xx) or not. -/
inductive CallOutcome where
  | success (v : Nat)
  | failure (transient : Bool)

/-- The backoff delay tenacity computes before the retry following attempt
number `attempt`: `wait_exponential(multiplier=1, max=60)`, i.e.
`min 60 (2 ^ attempt)` seconds, doubling up to the 60-second cap. -/
def waitExponential (attempt : Nat) : Nat :=
  min 60 (2 ^ attempt)

/-- Embedding of the loop tenacity runs for
`retry(wait=..., stop=stop_after_attempt(n))` with its *default* retry
predicate `retry_if_exception_type(Exception)`: every exception — whether
transient or not — triggers a retry while attempts remain.  `outcomes k`
is what the wrapped call does on attempt `k` (1-based); `remaining` is the
number of further attempts the stop condition still allows.  Returns the
number of attempts performed and either the value or the classification of
the exception finally raised. -/
def tenacityRun (outcomes : Nat → CallOutcome) :
    Nat → Nat → Nat × Except Bool Nat
  | attempt, 0 =>
    match outcomes attempt with
    | .success v => (attempt, .ok v)
    | .failure t => (attempt, .error t)
  | attempt, remaining + 1 =>
    match outcomes attempt with
    | .success v => (attempt, .ok v)
    | .failure _ => tenacityRun outcomes (attempt + 1) remaining

/-- Embedding of `default_retry_decorator` (`google_docai.py` line 36)
applied to a chunk call: `stop_after_attempt(10)`, so at most 10 attempts
(9 retries after the first attempt). -/
def default_retry_run (outcomes : Nat → CallOutcome) : Nat × Except Bool Nat :=
  tenacityRun outcomes 1 9

/-- A backend `documentai.Document` returned for one chunk, restricted to
what the merge step reads: its full text and its page list (each page's
payload left opaque). -/
structure GcpDocument where
  text : String
  pages : List String
deriving DecidableEq, Repr

/-- A `PageResult` as built by `process_page`, restricted to the fields the
merge claims are about. -/
structure PageResultG where
  providerName : String
  pageNumber : Nat
deriving DecidableEq, Repr

/-- A `ProviderResult` as built by the merge functions. -/
structure ProviderResultG where
  providerName : String
  pageResults : List PageResultG
deriving DecidableEq, Repr

/-- The loop of `gcp_documents_to_result_single` (`google_docai.py` lines
200–212): for each document, emit one `PageResult` per page numbered
`page_offset + doc_page_num`, then advance `page_offset` by
`doc_page_num + 1`, where `doc_page_num` is the inner loop variable
*after* the loop — for an empty document it keeps its value from the
previous document (`lastIdx`), and if no previous document had a page it
is an unbound local (`NameError`, embedded as `none`). -/
def mergeLoop (providerName : String) :
    List GcpDocument → Nat → Option Nat → List PageResultG →
    Option (List PageResultG)
  | [], _, _, acc => some acc
  | d :: rest, pageOffset, lastIdx, acc =>
    let n := d.pages.length
    let acc2 := acc ++ (List.range n).map
      (fun i => { providerName := providerName, pageNumber := pageOffset + i })
    let lastIdx2 := if n = 0 then lastIdx else some (n - 1)
    match lastIdx2 with
    | none => none
    | some k => mergeLoop providerName rest (pageOffset + k + 1) lastIdx2 acc2

/-- Embedding of `gcp_documents_to_result_single` (`google_docai.py` lines
193–217): 1-indexed page numbering (`page_offset = 1`) over the documents
in order. -/
def gcp_documents_to_result_single (documents : List GcpDocument)
    (providerName : String) : Option ProviderResultG :=
  (mergeLoop providerName documents 1 none []).map
    (fun rs => { providerName := "GoogleDocumentAIProvider", pageResults := rs })

/-- The argument `gcp_documents_to_result` passes on: the source annotates
`documents: list[documentai.Document]`, but the call site passes
`documents[0]`, a single document. -/
inductive GcpDocsArg where
  | list (ds : List GcpDocument)
  | single (d : GcpDocument)

/-- `gcp_documents_to_result_single` as dynamically typed Python runs it:
handed a list it iterates the list; handed a single `documentai.Document`
the first `for document in documents` raises `TypeError` (a protobuf
message is not iterable), embedded as `none`. -/
def gcp_documents_to_result_single_dyn (arg : GcpDocsArg)
    (providerName : String) : Option ProviderResultG :=
  match arg with
  | .list ds => gcp_documents_to_result_single ds providerName
  | .single _ => none

/-- Embedding of `gcp_documents_to_result` (`google_docai.py` lines
280–296): the dispatch `if True or len(documents) == 1 or ...` always
takes the single-process branch, and that branch passes `documents[0]`
(not `documents`) to `gcp_documents_to_result_single`; on an empty list
`documents[0]` raises `IndexError` (`none`). -/
def gcp_documents_to_result (documents : List GcpDocument)
    (providerName : String) : Option ProviderResultG :=
  match documents with
  | [] => none
  | d :: _ => gcp_documents_to_result_single_dyn (.single d) providerName

/-- Embedding of the result collection in
`GoogleDocumentAIProvider._process_document_concurrent` (`google_docai.py`
lines 459–471): a pre-sized slot list `documents = [None] * n`, written as
futures complete — `order` is the completion order of the chunk indices,
and `result i` is the (fixed) backend document for chunk `i`. -/
def collectSlots {α : Type} (n : Nat) (result : Nat → α) (order : List Nat) :
    List (Option α) :=
  order.foldl (fun slots i => slots.set i (some (result i))) (List.replicate n none)

/-! ### Concrete scenarios used by the theorems -/

/-- The `__dict__` of a class decorated with
`flexible_methods(("method", "method_async"))` that defines the sync
member: after decoration it holds the defined sync method and the
synthesized async wrapper (the `BaseClass` of `test_decorators.py`). -/
def flexBaseDict : ClassDict :=
  [("method", .defined { isAsync := false, fn := fun _ => 7 }),
   ("method_async", .synthFromSync)]

/-- The `__dict__` of a subclass that overrides `method` with an `async
def` (the `ErrorSubclass` of `test_error_in_subclass`). -/
def flexSubOwn : ClassDict :=
  [("method", .defined { isAsync := true, fn := fun _ => 0 })]

/-- The `__dict__` of a directly decorated class whose two members both
have the wrong execution mode (the `ErrorClass` of
`test_wrong_sync_async`). -/
def flexErrOwn : ClassDict :=
  [("method", .defined { isAsync := true, fn := fun _ => 0 }),
   ("method_async", .defined { isAsync := false, fn := fun _ => 0 })]

/-- The `__dict__` of a class declaring two pairs and defining only the
sync member of each (`m1` returns 1, `m2` returns 2). -/
def multiGroupOwn : ClassDict :=
  [("m1", .defined { isAsync := false, fn := fun _ => 1 }),
   ("m2", .defined { isAsync := false, fn := fun _ => 2 })]

/-- The class produced by decorating `multiGroupOwn` with
`flexible_methods(("m1", "m1_async"), ("m2", "m2_async"))`. -/
def multiGroupClass : Except (List FlexError) FlexClass :=
  apply_flexible_methods "MultiGroupClass" "MultiGroupClass"
    [["m1", "m1_async"], ["m2", "m2_async"]] multiGroupOwn []

/-- A one-page backend document for chunk 1. -/
def gcpDoc1 : GcpDocument := { text := "", pages := ["p1"] }

/-- A two-page backend document for chunk 2. -/
def gcpDoc2 : GcpDocument := { text := "", pages := ["p2", "p3"] }

/-- A concrete page-scope task result. -/
def resX : TaskResultM := { providerName := "ocr", taskName := "text_extraction", payload := 0 }

/-- A document node with a single empty page. -/
def nodeOnePage : DocumentNodeM := { pages := [{ taskResults := [], ocrResults := [] }], docTaskResults := [] }

/-! ## Theorems -/

/-- C1: the claim states that the "must implement at least one"
definition-time error is raised exactly when neither member of a pair is
present anywhere in the resolved hierarchy, so that a subclass inheriting
both members succeeds.  The code refutes this: for a subclass `Child` of a
decorated `Base` that overrides neither member, `get_method` reports both
names as absent (they live in the direct base's `__dict__`), and the
missing-pair error is raised even though both names are present in the
resolved hierarchy. -/
theorem flexible_methods_subclass_inherited_pair_rejected :
    apply_flexible_methods "Base" "Child" [["method", "method_async"]] [] [flexBaseDict]
      = .error [.missingPair "Child" "method" "method_async"]
    ∧ presentInHierarchy [[], flexBaseDict] "method" = true
    ∧ presentInHierarchy [[], flexBaseDict] "method_async" = true :=
  ⟨rfl, rfl, rfl⟩

/-- C2: the claim states the synthesized member returns the same value as
the defined member of its own pair, for every declared pair, including
when two or more pairs are synthesized on the same class.  The code
refutes this: every synthesized wrapper closes over the shared loop
variables `sync_method`/`async_method`, so after the loop all of them call
the last pair's method — here the synthesized `m1_async` returns `m2`'s
value 2, not `m1`'s value 1. -/
theorem flexible_methods_multi_pair_late_binding :
    multiGroupClass.map (fun c =>
        (callMethod c "m1_async" [], callMethod c "m2" [], callMethod c "m1" []))
      = .ok (some 2, some 2, some 1)
    ∧ (some 2 : Option Nat) ≠ some 1 :=
  ⟨rfl, by decide⟩

/-- C3: the claim states each mode-mismatch message names the type being
defined, including when that type is a subclass of the decorated class.
The code refutes the subclass part: `validate_method` interpolates the
decorator closure's `cls.__name__`, so a mismatch in `ErrorSubclass` is
reported against `BaseClass`.  The aggregation part holds: a class with
two violations gets both collected into the one raised error. -/
theorem flexible_methods_mismatch_names_decorated_class :
    apply_flexible_methods "BaseClass" "ErrorSubclass" [["method", "method_async"]]
        flexSubOwn [flexBaseDict]
      = .error [.modeMismatch "method" "BaseClass" false]
    ∧ "BaseClass" ≠ "ErrorSubclass"
    ∧ apply_flexible_methods "ErrorClass" "ErrorClass" [["method", "method_async"]]
        flexErrOwn []
      = .error [.modeMismatch "method" "ErrorClass" false,
                .modeMismatch "method_async" "ErrorClass" true] :=
  ⟨rfl, by decide, rfl⟩

/-- C4: the claim states only transient failures are retried and every
non-transient failure propagates immediately without retry.  The code
refutes this: `default_retry_decorator` uses tenacity's default retry
predicate (retry on any `Exception`), so a call that keeps raising a
non-transient error is still attempted the full 10 times before the
failure propagates, instead of once. -/
theorem default_retry_retries_nontransient :
    default_retry_run (fun _ => .failure false) = (10, .error false)
    ∧ (default_retry_run (fun _ => .failure false)).1 ≠ 1 :=
  ⟨rfl, by decide⟩

/-- C5: the claim states the recombined merged result's page numbers run
contiguously from 1 to the total page count.  The merge loop itself does
that — on the two chunks below `gcp_documents_to_result_single` numbers
the pages `[1, 2, 3]` — but the dispatch `gcp_documents_to_result`, which
the concurrent path calls, passes `documents[0]` (a single
`documentai.Document`, which is not iterable) instead of the list, so the
recombination raises `TypeError` and produces no merged result at all. -/
theorem gcp_merge_dispatch_drops_document_list :
    gcp_documents_to_result [gcpDoc1, gcpDoc2] "GoogleDocumentAIProvider" = none
    ∧ (gcp_documents_to_result_single [gcpDoc1, gcpDoc2] "GoogleDocumentAIProvider").map
        (fun r => r.pageResults.map (fun p => p.pageNumber)) = some [1, 2, 3] :=
  ⟨rfl, rfl⟩

/-- C10: calling the page-level `process_document_node` on an instance
whose `provider_kwargs` attribute was never assigned raises
`AttributeError` at the very first statement: the result is the error for
every `process_document_pages` implementation, every document node, both
values of the contribute flag and all call-time kwargs — so the pages
method is never invoked and the graph is never touched. -/
theorem process_document_node_missing_kwargs_attribute_error {β : Type}
    (pdp : PyDict β → List (Nat × TaskResultM)) (node : DocumentNodeM)
    (contribute : Bool) (kwargs : PyDict β) :
    process_document_node (none : Option (PyDict β)) pdp node contribute kwargs
      = .error .attributeError :=
  rfl

/-- Inserting into a dict leaves the head entry's key in place, updating
only its value when the key matches; inserting into the empty dict makes
the new entry the head. -/
lemma assocSet_head? {β : Type} (d : PyDict β) (k : String) (v : β) :
    (assocSet d k v).head? =
      match d.head? with
      | none => some (k, v)
      | some p => some (p.1, if p.1 == k then v else p.2) := by
  match d with
  | [] => rfl
  | (k₀, v₀) :: tl =>
    simp only [assocSet]
    by_cases h : ((k₀, v₀) :: tl).any (fun p => p.1 == k)
    · simp only [h, if_true, List.map_cons, List.head?_cons]
      by_cases hk : (k₀ == k) = true
      · have hk2 : k₀ = k := by simpa using hk
        simp [hk, hk2]
      · simp [hk]
    · have hk : (k₀ == k) = false := by
        simp only [List.any_cons, Bool.or_eq_true, not_or] at h
        simpa using h.1
      simp [h, hk]

/-- Folding a sequence of insertions over a dict with head `(k₀, w)` keeps
`k₀` as the head key and updates the head value to the latest value
inserted for `k₀` (or keeps `w` if none is). -/
lemma foldl_assocSet_head? {β : Type} (events : List (String × β)) :
    ∀ (d : PyDict β) (k₀ : String) (w : β), d.head? = some (k₀, w) →
      (events.foldl (fun acc p => assocSet acc p.1 p.2) d).head?
        = some (k₀, events.foldl (fun acc p => if p.1 == k₀ then p.2 else acc) w) := by
  induction events with
  | nil => intro d k₀ w h; simpa using h
  | cons e tl ih =>
    intro d k₀ w h
    simp only [List.foldl_cons]
    have hh : (assocSet d e.1 e.2).head? = some (k₀, if k₀ == e.1 then e.2 else w) := by
      rw [assocSet_head?, h]
    rw [ih _ _ _ hh]
    by_cases hk : k₀ = e.1
    · simp [hk]
    · have h1 : (k₀ == e.1) = false := by simpa using hk
      have h2 : (e.1 == k₀) = false := by simpa using (Ne.symm hk)
      simp [h1, h2]

/-- C9: the `result` property of a `ResultContainer` returns `None` when
nothing was inserted, and otherwise the entry of the first-inserted
provider name — holding that provider's latest value, since an overwrite
replaces the value in place without moving the entry. -/
theorem resultContainer_result_first_inserted {β : Type} (k : String) (v : β)
    (rest : List (String × β)) :
    containerResult (applyInserts ([] : List (String × β))) = none
    ∧ containerResult (applyInserts ((k, v) :: rest))
      = some (rest.foldl (fun acc p => if p.1 == k then p.2 else acc) v) := by
  refine ⟨rfl, ?_⟩
  have h0 : (assocSet ([] : PyDict β) k v).head? = some (k, v) := rfl
  unfold applyInserts containerResult
  rw [List.foldl_cons, foldl_assocSet_head? rest _ k v h0]
  rfl

/-- Writing results into slots preserves the slot list's length. -/
lemma foldl_set_length {α : Type} (result : Nat → α) (order : List Nat)
    (acc : List (Option α)) :
    (order.foldl (fun slots i => slots.set i (some (result i))) acc).length
      = acc.length := by
  induction order generalizing acc with
  | nil => rfl
  | cons i tl ih => simp [List.foldl_cons, ih, List.length_set]

/-- After all writes, slot `j` holds `result j` exactly when `j` was
written (each write targets its own index with a value depending only on
that index, so completion order is irrelevant). -/
lemma foldl_set_getElem? {α : Type} (result : Nat → α) (order : List Nat)
    (acc : List (Option α)) (j : Nat) (hmem : ∀ i ∈ order, i < acc.length) :
    (order.foldl (fun slots i => slots.set i (some (result i))) acc)[j]?
      = if j ∈ order then some (some (result j)) else acc[j]? := by
  induction order generalizing acc with
  | nil => simp
  | cons i tl ih =>
    have hmem2 : ∀ x ∈ tl, x < (acc.set i (some (result i))).length := by
      intro x hx
      rw [List.length_set]
      exact hmem x (List.mem_cons_of_mem i hx)
    rw [List.foldl_cons, ih _ hmem2]
    by_cases hj : j ∈ tl
    · simp [hj, List.mem_cons_of_mem i hj]
    · by_cases hij : j = i
      · have hlt : i < acc.length := hmem i (List.mem_cons_self i tl)
        subst hij
        simp [hj, List.getElem?_set_eq_of_lt _ hlt]
      · have : i ≠ j := fun h => hij h.symm
        simp [hj, hij, List.getElem?_set_ne this, List.mem_cons]

/-- For any completion order that is a permutation of the chunk indices,
the collected slot list equals the results in original chunk order. -/
lemma collectSlots_eq_of_perm {α : Type} (n : Nat) (result : Nat → α)
    (order : List Nat) (h : order.Perm (List.range n)) :
    collectSlots n result order = (List.range n).map (fun i => some (result i)) := by
  apply List.ext_getElem?
  intro j
  have hmem : ∀ i ∈ order, i < (List.replicate n (none : Option α)).length := by
    intro i hi
    rw [List.length_replicate]
    exact List.mem_range.mp (h.mem_iff.mp hi)
  rw [collectSlots, foldl_set_getElem? result order _ j hmem]
  by_cases hj : j < n
  · have hjo : j ∈ order := h.mem_iff.mpr (List.mem_range.mpr hj)
    rw [if_pos hjo, List.getElem?_map, List.getElem?_range hj]
    rfl
  · have hjo : j ∉ order := fun hc => hj (List.mem_range.mp (h.mem_iff.mp hc))
    rw [if_neg hjo, List.getElem?_map]
    have h1 : (List.replicate n (none : Option α))[j]? = none := by
      rw [List.getElem?_eq_none]
      simpa using Nat.le_of_not_lt hj
    have h2 : (List.range n)[j]? = none := by
      rw [List.getElem?_eq_none]
      simpa using Nat.le_of_not_lt hj
    rw [h1, h2]
    rfl

/-- C6: the concurrent executor's slot writes make the collected document
list — and hence anything computed from it, such as the final merged
result — a function of the chunk inputs alone: for every two completion
orders of the chunk futures, the collected list is the same, namely the
per-chunk results in original chunk order. -/
theorem concurrent_collection_order_independent {α : Type} (n : Nat)
    (result : Nat → α) (order1 order2 : List Nat)
    (h1 : order1.Perm (List.range n)) (h2 : order2.Perm (List.range n)) :
    collectSlots n result order1 = (List.range n).map (fun i => some (result i))
    ∧ collectSlots n result order1 = collectSlots n result order2 := by
  refine ⟨collectSlots_eq_of_perm n result order1 h1, ?_⟩
  rw [collectSlots_eq_of_perm n result order1 h1,
    collectSlots_eq_of_perm n result order2 h2]

/-- Witness for C6: a two-chunk run whose futures complete in reverse
order collects the same list, in original order, as an in-order run. -/
theorem concurrent_collection_order_independent_witness :
    ([1, 0].Perm (List.range 2) ∧ [0, 1].Perm (List.range 2))
    ∧ (collectSlots 2 (fun i => i * 10) [1, 0]
        = (List.range 2).map (fun i => some (i * 10))
      ∧ collectSlots 2 (fun i => i * 10) [1, 0]
        = collectSlots 2 (fun i => i * 10) [0, 1]) :=
  ⟨⟨by decide, by decide⟩,
    concurrent_collection_order_independent 2 (fun i => i * 10) [1, 0] [0, 1]
      (by decide) (by decide)⟩

/-- A key absent from a dict's key list looks up to `None`. -/
lemma pyLookup_eq_none_of_not_mem {β : Type} (d : PyDict β) (k : String)
    (h : k ∉ d.map Prod.fst) : pyLookup d k = none := by
  have hf : d.find? (fun p => p.1 == k) = none := by
    rw [List.find?_eq_none]
    intro x hx hc
    exact h (List.mem_map.mpr ⟨x, hx, by simpa using hc⟩)
  simp [pyLookup, hf]

/-- Overwriting every matching entry with `(k, v)` makes the first match
for `k` be `(k, v)` when a match exists. -/
lemma find?_map_overwrite {β : Type} (k : String) (v : β) (d : PyDict β) :
    (d.map (fun p => if p.1 == k then (k, v) else p)).find? (fun p => p.1 == k)
      = if d.any (fun p => p.1 == k) then some (k, v) else none := by
  induction d with
  | nil => rfl
  | cons a tl ih =>
    cases ha : (a.1 == k) with
    | true =>
      have h1 : (fun p => if p.1 == k then (k, v) else p) a = (k, v) := by
        simp [ha]
      simp only [List.map_cons, h1, List.any_cons, ha, Bool.true_or, if_true]
      exact List.find?_cons_of_pos _ (by simp)
    | false =>
      have h1 : (fun p => if p.1 == k then (k, v) else p) a = a := by
        simp [ha]
      simp only [List.map_cons, h1, List.any_cons, ha, Bool.false_or]
      rw [List.find?_cons_of_neg _ (by simp [ha]), ih]

/-- Overwriting the entries matching `k` never changes the first match for
a different key. -/
lemma find?_map_overwrite_ne {β : Type} (k k₂ : String) (v : β) (d : PyDict β)
    (hne : k₂ ≠ k) :
    (d.map (fun p => if p.1 == k then (k, v) else p)).find? (fun p => p.1 == k₂)
      = d.find? (fun p => p.1 == k₂) := by
  induction d with
  | nil => rfl
  | cons a tl ih =>
    cases ha : (a.1 == k) with
    | true =>
      have ha2 : a.1 = k := by simpa using ha
      have hk2 : (k == k₂) = false := by simpa using (Ne.symm hne)
      have ha3 : (a.1 == k₂) = false := by rw [ha2]; exact hk2
      have h1 : (fun p => if p.1 == k then (k, v) else p) a = (k, v) := by
        simp [ha]
      simp only [List.map_cons, h1]
      rw [List.find?_cons_of_neg _ (by simp [hk2]),
        List.find?_cons_of_neg _ (by simp [ha3]), ih]
    | false =>
      have h1 : (fun p => if p.1 == k then (k, v) else p) a = a := by
        simp [ha]
      simp only [List.map_cons, h1]
      cases hb : (a.1 == k₂) with
      | true =>
        simp only [List.find?, hb]
      | false =>
        rw [List.find?_cons_of_neg _ (by simp [hb]),
          List.find?_cons_of_neg _ (by simp [hb]), ih]

/-- Looking up the key just inserted returns the inserted value. -/
lemma pyLookup_assocSet_self {β : Type} (d : PyDict β) (k : String) (v : β) :
    pyLookup (assocSet d k v) k = some v := by
  unfold assocSet pyLookup
  by_cases h : d.any (fun p => p.1 == k)
  · rw [if_pos h, find?_map_overwrite, if_pos h]
    rfl
  · rw [if_neg h, List.find?_append]
    have hd : d.find? (fun p => p.1 == k) = none := by
      rw [List.find?_eq_none]
      intro x hx hc
      exact h (List.any_eq_true.mpr ⟨x, hx, hc⟩)
    simp [hd]

/-- Inserting under one key does not change the lookup of another. -/
lemma pyLookup_assocSet_ne {β : Type} (d : PyDict β) (k k₂ : String) (v : β)
    (hne : k₂ ≠ k) : pyLookup (assocSet d k v) k₂ = pyLookup d k₂ := by
  unfold assocSet pyLookup
  by_cases h : d.any (fun p => p.1 == k)
  · rw [if_pos h, find?_map_overwrite_ne k k₂ v d hne]
  · rw [if_neg h, List.find?_append]
    have hk : (k == k₂) = false := by simpa using (Ne.symm hne)
    simp [hk]

/-- Looking up a key in a merged dict finds the call-time (`d2`) value
when present, else the bound (`d1`) value — given that `d2`'s keys are
unrepeated, as a Python dict's always are. -/
lemma pyMerge_lookup {β : Type} (kwargs : PyDict β) :
    ∀ (pk : PyDict β) (k : String), (kwargs.map Prod.fst).Nodup →
      pyLookup (pyMerge pk kwargs) k = (pyLookup kwargs k).or (pyLookup pk k) := by
  induction kwargs with
  | nil =>
    intro pk k _
    simp [pyMerge, pyLookup]
  | cons e tl ih =>
    intro pk k hnodup
    have hmc : ((e :: tl).map Prod.fst).Nodup := hnodup
    rw [List.map_cons, List.nodup_cons] at hmc
    obtain ⟨hnotin, hnd⟩ := hmc
    have hstep : pyMerge pk (e :: tl) = pyMerge (assocSet pk e.1 e.2) tl := rfl
    rw [hstep, ih _ k hnd]
    by_cases hk : k = e.1
    · have hbeq : (e.1 == k) = true := by simp [hk]
      have h1 : pyLookup tl k = none := by
        apply pyLookup_eq_none_of_not_mem
        rw [hk]
        exact hnotin
      have h2 : pyLookup (e :: tl) k = some e.2 := by
        unfold pyLookup
        simp only [List.find?, hbeq]
        rfl
      have h3 : pyLookup (assocSet pk e.1 e.2) k = some e.2 := by
        rw [hk]
        exact pyLookup_assocSet_self pk e.1 e.2
      rw [h1, h2, h3]
      rfl
    · have hbeq : (e.1 == k) = false := by simpa using (Ne.symm hk)
      have h1 : pyLookup (assocSet pk e.1 e.2) k = pyLookup pk k :=
        pyLookup_assocSet_ne pk e.1 k e.2 hk
      have h2 : pyLookup (e :: tl) k = pyLookup tl k := by
        unfold pyLookup
        rw [List.find?_cons_of_neg _ (by simp [hbeq])]
      rw [h1, h2]

/-- C7 counterexample: a document-level provider bound (via `with_kwargs`)
to `{"a": 1}` and invoked with no call-time kwargs delegates the *empty*
dict to `process_document` (the produced payload records a dict of length
0), although the merge the claim requires would have passed `{"a": 1}`. -/
theorem doc_provider_ignores_bound_kwargs :
    doc_process_document_node (some [("a", (1 : Nat))])
        (fun d => { providerName := "x", taskName := "t", payload := d.length })
        { pages := [], docTaskResults := [] } false []
      = .ok ({ pages := [], docTaskResults := [] },
             { providerName := "x", taskName := "t", payload := 0 })
    ∧ pyMerge [("a", (1 : Nat))] [] = [("a", 1)]
    ∧ (0 : Nat) ≠ 1 :=
  ⟨rfl, rfl, by decide⟩

/-- C7 (amended): a page-level provider created via `with_kwargs` merges
the bound provider kwargs with the call-time kwargs — call-time values
winning on key collisions — before delegating to
`process_document_pages`; the document-level variant, by contrast,
delegates only the call-time kwargs to `process_document` and ignores the
bound provider kwargs. -/
theorem with_kwargs_merge_call_time_wins {β : Type} (pk kwargs : PyDict β)
    (pdp : PyDict β → List (Nat × TaskResultM)) (pd : PyDict β → TaskResultM)
    (node : DocumentNodeM) (k : String)
    (hk : (kwargs.map Prod.fst).Nodup) :
    process_document_node (some pk) pdp node false kwargs
      = .ok (node, pdp (pyMerge pk kwargs))
    ∧ pyLookup (pyMerge pk kwargs) k = (pyLookup kwargs k).or (pyLookup pk k)
    ∧ doc_process_document_node (some pk) pd node false kwargs
      = .ok (node, pd kwargs) :=
  ⟨rfl, pyMerge_lookup kwargs pk k hk, rfl⟩

/-- Witness for C7 (amended): bound `{"a": 1}`, call-time `{"a": 2}` — the
merged lookup of `"a"` yields the call-time value, and the document-level
variant delegates the call-time dict alone. -/
theorem with_kwargs_merge_call_time_wins_witness :
    (([("a", (2 : Nat))] : PyDict Nat).map Prod.fst).Nodup
    ∧ (process_document_node (some [("a", 1)]) (fun _ => []) nodeOnePage false
          [("a", 2)]
        = .ok (nodeOnePage, [])
      ∧ pyLookup (pyMerge [("a", 1)] [("a", 2)]) "a"
        = (pyLookup [("a", (2 : Nat))] "a").or (pyLookup [("a", 1)] "a")
      ∧ doc_process_document_node (some [("a", 1)]) (fun _ => resX) nodeOnePage
          false [("a", 2)]
        = .ok (nodeOnePage, resX)) :=
  ⟨by decide,
    with_kwargs_merge_call_time_wins [("a", 1)] [("a", 2)] (fun _ => [])
      (fun _ => resX) nodeOnePage "a" (by decide)⟩

/-- C8 counterexample: an OCR provider invoked with
`contribute_to_document=False` does *not* leave the document graph
unchanged — `_populate_ocr_results` runs unconditionally and writes the
produced result into the page's `ocr_results` container. -/
theorem ocr_contribute_false_still_writes :
    ocr_process_document_node "ocr" (some ([] : PyDict Nat))
        (fun _ => [(1, resX)]) nodeOnePage false []
      = .ok ({ pages := [{ taskResults := [], ocrResults := [("ocr", resX)] }],
               docTaskResults := [] }, [(1, resX)])
    ∧ ({ pages := [{ taskResults := [], ocrResults := [("ocr", resX)] }],
         docTaskResults := [] } : DocumentNodeM) ≠ nodeOnePage :=
  ⟨rfl, by decide⟩

/-- C8 (amended): for the base page-level and document-level providers,
`contribute_to_document=False` returns the produced results and leaves the
document graph unchanged; OCR providers, however, always write each
produced result into the page's `ocr_results` container under the
provider's name, even with the flag off.  With
`contribute_to_document=True` each produced result is inserted into the
corresponding page-scope (resp. document-scope) aggregator under the
provider's key. -/
theorem contribute_flag_frames_graph {β : Type} (pk kwargs : PyDict β)
    (pdp : PyDict β → List (Nat × TaskResultM)) (pd : PyDict β → TaskResultM)
    (node : DocumentNodeM) (nm : String) (p : Nat) (r : TaskResultM)
    (pg : PageNodeM) (hp : 1 ≤ p) (hpg : node.pages[p - 1]? = some pg) :
    process_document_node (some pk) pdp node false kwargs
      = .ok (node, pdp (pyMerge pk kwargs))
    ∧ doc_process_document_node (some pk) pd node false kwargs
      = .ok (node, pd kwargs)
    ∧ ocr_process_document_node nm (some pk) (fun _ => [(p, r)]) node false kwargs
      = .ok ({ node with pages := (node.pages.set (p - 1) ({ pg with ocrResults := assocSet pg.ocrResults nm r })) }, [(p, r)])
    ∧ process_document_node (some pk) (fun _ => [(p, r)]) node true kwargs
      = .ok ({ node with pages := (node.pages.set (p - 1) ({ pg with taskResults := assocSet pg.taskResults (taskKey r) r })) }, [(p, r)])
    ∧ doc_process_document_node (some pk) pd node true kwargs
      = .ok ({ node with docTaskResults := (assocSet node.docTaskResults (taskKey (pd kwargs)) (pd kwargs)) }, pd kwargs) := by
  have hlt : p - 1 < node.pages.length := (List.getElem?_eq_some.mp hpg).1
  have hp0 : p ≠ 0 := Nat.one_le_iff_ne_zero.mp hp
  refine ⟨rfl, rfl, ?_, ?_, rfl⟩
  · simp [ocr_process_document_node, process_document_node, populate_ocr_results,
      pyPageIndex, hp, hlt, hpg, List.foldlM, Except.bind, Except.map]
  · simp [process_document_node, contribute_to_document_node, hp0, hpg,
      List.foldlM, Except.bind, Except.map]

/-- Witness for C8 (amended): a one-page document node, a single result on
page 1. -/
theorem contribute_flag_frames_graph_witness :
    ((1 : Nat) ≤ 1
      ∧ nodeOnePage.pages[1 - 1]? = some { taskResults := [], ocrResults := [] })
    ∧ (process_document_node (some ([] : PyDict Nat)) (fun _ => [(1, resX)])
          nodeOnePage false []
        = .ok (nodeOnePage, [(1, resX)])
      ∧ doc_process_document_node (some ([] : PyDict Nat)) (fun _ => resX)
          nodeOnePage false []
        = .ok (nodeOnePage, resX)
      ∧ ocr_process_document_node "ocr" (some ([] : PyDict Nat))
          (fun _ => [(1, resX)]) nodeOnePage false []
        = .ok ({ pages := [{ taskResults := [], ocrResults := [("ocr", resX)] }],
                 docTaskResults := [] }, [(1, resX)])
      ∧ process_document_node (some ([] : PyDict Nat)) (fun _ => [(1, resX)])
          nodeOnePage true []
        = .ok ({ pages := [{ taskResults := [(taskKey resX, resX)], ocrResults := [] }],
                 docTaskResults := [] }, [(1, resX)])
      ∧ doc_process_document_node (some ([] : PyDict Nat)) (fun _ => resX)
          nodeOnePage true []
        = .ok ({ pages := [{ taskResults := [], ocrResults := [] }],
                 docTaskResults := [(taskKey resX, resX)] }, resX)) :=
  ⟨⟨by decide, rfl⟩,
    contribute_flag_frames_graph [] [] (fun _ => [(1, resX)]) (fun _ => resX)
      nodeOnePage "ocr" 1 resX { taskResults := [], ocrResults := [] }
      (by decide) rfl⟩

end Docprompt
